import Mathlib

/-!
Shallow embedding of `chapter7/patterns/runner/runner.go`, a bounded task
supervisor: it runs an ordered sequence of tasks, each invoked with its
0-based index, while racing an OS interrupt signal (checked before each
task) and a one-shot deadline timer.

Modelling choices, each tied to a line of the source:

* The `interrupt` channel of the `Runner` struct is a buffered Go channel
  created by `make(chan os.Signal, 1)`; together with the `os/signal`
  subscription toggled by `signal.Notify` / `signal.Stop` it is the only
  concurrently mutated state, captured here as `SigChan`.
* The package `os/signal` performs a non-blocking send on delivery: a raised
  signal is dropped when no subscription is active or the buffer is full
  (`SigChan.deliver`).
* Tasks are opaque `func(int)` values the supervisor never inspects, so they
  are abstract values of a type `α`; an execution is fully described by the
  trace of `(task, argument)` invocations in order.
* Signal arrival is scheduled by a function `arr : Nat → Nat` giving how many
  interrupt signals are raised while task `id` executes (i.e. between the
  check before task `id` and the check before task `id + 1`), plus a count
  `pre` of signals raised between `signal.Notify` and the first check.
* The race in `Start` between the unbuffered `complete` channel and the
  `timeout` channel is resolved by a boolean `timeoutFirst`: whether the
  deadline timer fires before the worker's completion send is received.
-/

/-- The values of Go's `error` result that the runner package can produce:
`ErrTimeout` and `ErrInterrupt`; `none` below stands for a `nil` error. -/
inductive GoError where
  | errTimeout
  | errInterrupt
deriving DecidableEq, Repr

/-- State of the `interrupt` channel together with its `os/signal`
subscription. `capacity` is the buffer size passed to `make`, `pending` the
number of buffered (not yet received) signals, `notifyActive` whether
`signal.Notify` is currently routing OS interrupts into the channel. -/
structure SigChan where
  capacity : Nat
  pending : Nat
  notifyActive : Bool
deriving DecidableEq, Repr

/-- The `Runner` struct. `completeCapacity` records the buffer size of the
`complete` channel (`make(chan error)` in `New`, hence 0), `timeoutDuration`
the duration handed to `time.After`. Tasks are opaque, kept as a list. -/
structure Runner (α : Type) where
  interrupt : SigChan
  completeCapacity : Nat
  timeoutDuration : Nat
  tasks : List α
deriving DecidableEq, Repr

/-- The interrupt channel as `New` creates it: `make(chan os.Signal, 1)`,
empty, with no `signal.Notify` subscription yet. -/
def newChan : SigChan := { capacity := 1, pending := 0, notifyActive := false }

/-- Go's `New(d time.Duration) *Runner`: empty task list, interrupt channel of
capacity 1, unbuffered `complete` channel, timer armed with `d`. -/
def Runner.new (α : Type) (d : Nat) : Runner α :=
  { interrupt := newChan, completeCapacity := 0, timeoutDuration := d, tasks := [] }

/-- Go's `Add(tasks ...func(int))`: `r.tasks = append(r.tasks, tasks...)`. -/
def Runner.add {α : Type} (r : Runner α) (ts : List α) : Runner α :=
  { r with tasks := r.tasks ++ ts }

/-- Effect of `signal.Notify(r.interrupt, os.Interrupt)`: starts routing OS interrupts
into the channel. -/
def SigChan.notify (s : SigChan) : SigChan := { s with notifyActive := true }

/-- One OS interrupt signal is raised. `os/signal` performs a non-blocking
send into every subscribed channel: the signal lands in the buffer when the
subscription is active and buffer space remains, and is dropped otherwise. -/
def SigChan.deliver (s : SigChan) : SigChan :=
  if s.notifyActive ∧ s.pending < s.capacity then { s with pending := s.pending + 1 } else s

/-- Effect of `n` OS interrupt signals raised in succession. -/
def SigChan.deliverN : Nat → SigChan → SigChan
  | 0, s => s
  | n + 1, s => SigChan.deliverN n s.deliver

/-- Go's `gotInterrupt()`: a `select` with a `default` branch, i.e. a non-blocking
receive on `interrupt`. If a signal is buffered it is consumed, `signal.Stop`
cancels the subscription, and `true` is returned; otherwise `false` and the
state is untouched. -/
def SigChan.gotInterrupt (s : SigChan) : Bool × SigChan :=
  if 0 < s.pending then
    (true, { s with pending := s.pending - 1, notifyActive := false })
  else
    (false, s)

/-- The loop of `run()`, started at index `id`:
`for id, task := range r.tasks { if r.gotInterrupt() { return ErrInterrupt };
task(id) }` followed by `return nil`. Returns the trace of
`(task, argument)` invocations, `run`'s return value, and the final channel
state. `arr id` signals are delivered while task `id` executes. -/
def runAux {α : Type} : List α → Nat → (Nat → Nat) → SigChan →
    List (α × Nat) × Option GoError × SigChan
  | [], _, _, s => ([], none, s)
  | t :: rest, id, arr, s =>
    let g := s.gotInterrupt
    if g.1 then
      ([], some GoError.errInterrupt, g.2)
    else
      let q := runAux rest (id + 1) arr (SigChan.deliverN (arr id) g.2)
      ((t, id) :: q.1, q.2.1, q.2.2)

/-- Go's `run()` over the registered tasks, from channel state `s`. -/
def Runner.run {α : Type} (r : Runner α) (arr : Nat → Nat) (s : SigChan) :
    List (α × Nat) × Option GoError × SigChan :=
  runAux r.tasks 0 arr s

/-- Go's `Start()`: subscribes via `signal.Notify` (after which `pre` signals are
raised before the first check), launches `run` on a worker goroutine, then
`select`s between `<-r.complete` and `<-r.timeout`. `timeoutFirst` tells
which case fires first. The first component is the value `Start` returns to
the caller; the second is the worker's complete outcome (trace, `run`'s
return value, final channel state), which the caller never waits for on the
timeout branch. -/
def Runner.start {α : Type} (r : Runner α) (pre : Nat) (arr : Nat → Nat)
    (timeoutFirst : Bool) :
    Option GoError × (List (α × Nat) × Option GoError × SigChan) :=
  let worker := r.run arr (SigChan.deliverN pre r.interrupt.notify)
  (if timeoutFirst then some GoError.errTimeout else worker.2.1, worker)

/-- A sequence of `gotInterrupt` checks performed on one channel, where
`ns.get i` signals are raised just before check `i`; returns what each check
reported. -/
def checksAfter : List Nat → SigChan → List Bool
  | [], _ => []
  | n :: rest, s =>
    let g := (SigChan.deliverN n s).gotInterrupt
    g.1 :: checksAfter rest g.2

/-- A send on a Go channel of buffer size `cap` completes exactly when a
receiver is waiting or buffer space remains; otherwise the sender blocks. -/
def sendCompletes (cap : Nat) (receiverWaiting : Bool) : Bool :=
  receiverWaiting || decide (0 < cap)

/-- Once `Start` has returned on the timeout branch, the caller never
receives from `complete` again, so no receiver is ever waiting; the worker
goroutine terminates iff its final send `r.complete <- r.run()` completes. -/
def Runner.workerTerminatesAfterTimeout {α : Type} (r : Runner α) : Bool :=
  sendCompletes r.completeCapacity false

/-! ### Basic channel lemmas -/

theorem gotInterrupt_of_empty (s : SigChan) (h : s.pending = 0) :
    s.gotInterrupt = (false, s) := by
  simp [SigChan.gotInterrupt, h]

theorem gotInterrupt_of_pos (s : SigChan) (h : 0 < s.pending) :
    s.gotInterrupt =
      (true, { s with pending := s.pending - 1, notifyActive := false }) := by
  simp [SigChan.gotInterrupt, h]

theorem deliver_capacity (s : SigChan) : s.deliver.capacity = s.capacity := by
  unfold SigChan.deliver
  split <;> rfl

theorem deliver_notifyActive (s : SigChan) : s.deliver.notifyActive = s.notifyActive := by
  unfold SigChan.deliver
  split <;> rfl

theorem deliverN_capacity (n : Nat) (s : SigChan) :
    (SigChan.deliverN n s).capacity = s.capacity := by
  induction n generalizing s with
  | zero => rfl
  | succ m ih => simp [SigChan.deliverN, ih, deliver_capacity]

theorem deliverN_notifyActive (n : Nat) (s : SigChan) :
    (SigChan.deliverN n s).notifyActive = s.notifyActive := by
  induction n generalizing s with
  | zero => rfl
  | succ m ih => simp [SigChan.deliverN, ih, deliver_notifyActive]

theorem deliver_of_inactive (s : SigChan) (h : s.notifyActive = false) :
    s.deliver = s := by
  simp [SigChan.deliver, h]

theorem deliverN_of_inactive (n : Nat) (s : SigChan) (h : s.notifyActive = false) :
    SigChan.deliverN n s = s := by
  induction n with
  | zero => rfl
  | succ m ih => simp [SigChan.deliverN, deliver_of_inactive s h, ih]

theorem deliver_of_full (s : SigChan) (h : ¬ s.pending < s.capacity) :
    s.deliver = s := by
  simp [SigChan.deliver, h]

theorem deliverN_of_full (n : Nat) (s : SigChan) (h : ¬ s.pending < s.capacity) :
    SigChan.deliverN n s = s := by
  induction n with
  | zero => rfl
  | succ m ih => simp [SigChan.deliverN, deliver_of_full s h, ih]

theorem deliver_pending_le (s : SigChan) (h : s.pending ≤ s.capacity) :
    s.deliver.pending ≤ s.capacity := by
  unfold SigChan.deliver
  split
  case isTrue hc => exact hc.2
  case isFalse => exact h

theorem deliverN_pending_le (n : Nat) (s : SigChan) (h : s.pending ≤ s.capacity) :
    (SigChan.deliverN n s).pending ≤ s.capacity := by
  induction n generalizing s with
  | zero => exact h
  | succ m ih =>
    have h2 : s.deliver.pending ≤ s.deliver.capacity := by
      rw [deliver_capacity]
      exact deliver_pending_le s h
    have := ih s.deliver h2
    rw [deliver_capacity] at this
    exact this

/-- Any positive number of signals raised at an empty, subscribed channel of
capacity 1 coalesces to exactly one buffered signal: the first lands, the
rest are dropped. -/
theorem deliverN_fill (n : Nat) (s : SigChan) (hc : s.capacity = 1)
    (hp : s.pending = 0) (ha : s.notifyActive = true) (hn : 1 ≤ n) :
    SigChan.deliverN n s = { s with pending := 1 } := by
  obtain ⟨m, rfl⟩ : ∃ m, n = m + 1 := ⟨n - 1, (Nat.succ_pred_eq_of_pos hn).symm⟩
  have h1 : s.deliver = { s with pending := 1 } := by
    simp [SigChan.deliver, ha, hp, hc]
  have h2 : SigChan.deliverN m ({ s with pending := 1 } : SigChan) =
      { s with pending := 1 } := by
    apply deliverN_of_full
    simp [hc]
  simp [SigChan.deliverN, h1, h2]

/-! ### Execution-loop lemmas -/

/-- With an empty channel and no signal ever raised, the loop runs every
task in order with consecutive indices, returns `nil` and leaves the channel
untouched. -/
theorem runAux_no_signal {α : Type} (ts : List α) (id : Nat) (arr : Nat → Nat)
    (s : SigChan) (hp : s.pending = 0) (harr : ∀ i, arr i = 0) :
    runAux ts id arr s = (ts.zip (List.range' id ts.length), none, s) := by
  induction ts generalizing id with
  | nil => simp [runAux]
  | cons t rest ih =>
    have hg : s.gotInterrupt = (false, s) := gotInterrupt_of_empty s hp
    have hd : SigChan.deliverN (arr id) s = s := by
      rw [harr id]
      rfl
    simp only [runAux, hg, hd, ih (id + 1), List.length_cons, List.range'_succ,
      List.zip_cons_cons]
    rfl

/-- If the first signal of the run is raised while task `id + k` executes and
the loop still has at least `k + 2` tasks ahead, the check that precedes task
`id + k + 1` consumes it: exactly the first `k + 1` remaining tasks run, the
loop returns `ErrInterrupt`, and the subscription is stopped. Channel as in
the source: capacity 1, initially empty, subscribed. -/
theorem runAux_interrupt_at {α : Type} (ts : List α) (id k : Nat)
    (arr : Nat → Nat) (s : SigChan) (hc : s.capacity = 1) (hp : s.pending = 0)
    (ha : s.notifyActive = true) (hk : k + 1 < ts.length)
    (hbefore : ∀ i, i < k → arr (id + i) = 0) (hsig : 1 ≤ arr (id + k)) :
    runAux ts id arr s =
      ((ts.zip (List.range' id ts.length)).take (k + 1), some GoError.errInterrupt,
        { s with pending := 0, notifyActive := false }) := by
  induction ts generalizing id k with
  | nil => simp at hk
  | cons t rest ih =>
    have hg : s.gotInterrupt = (false, s) := gotInterrupt_of_empty s hp
    match k with
    | 0 =>
      have hd : SigChan.deliverN (arr id) s = { s with pending := 1 } :=
        deliverN_fill (arr id) s hc hp ha (by simpa using hsig)
      cases rest with
      | nil => simp at hk
      | cons u rest2 =>
        have hg2 : SigChan.gotInterrupt ({ s with pending := 1 } : SigChan) =
            (true, { s with pending := 0, notifyActive := false }) := by
          simp [SigChan.gotInterrupt]
        simp [runAux, hg, hd, hg2, List.range'_succ]
    | j + 1 =>
      have h0 : arr id = 0 := by simpa using hbefore 0 (Nat.succ_pos j)
      have hd : SigChan.deliverN (arr id) s = s := by
        rw [h0]
        rfl
      have hb2 : ∀ i, i < j → arr (id + 1 + i) = 0 := by
        intro i hi
        have := hbefore (i + 1) (by omega)
        have he : id + (i + 1) = id + 1 + i := by omega
        rw [he] at this
        exact this
      have hs2 : 1 ≤ arr (id + 1 + j) := by
        have he : id + 1 + j = id + (j + 1) := by omega
        rw [he]
        exact hsig
      have hk2 : j + 1 < rest.length := by
        simp only [List.length_cons] at hk
        omega
      have hrec := ih (id + 1) j hk2 hb2 hs2
      simp [runAux, hg, hd, hrec, List.length_cons, List.range'_succ,
        List.zip_cons_cons, List.take_succ_cons]

/-- A pending signal at the first check aborts the loop before any task:
empty trace, `ErrInterrupt`, signal consumed and subscription stopped. -/
theorem runAux_interrupt_first {α : Type} (t : α) (ts : List α) (id : Nat)
    (arr : Nat → Nat) (s : SigChan) (h : 0 < s.pending) :
    runAux (t :: ts) id arr s =
      ([], some GoError.errInterrupt,
        { s with pending := s.pending - 1, notifyActive := false }) := by
  simp [runAux, gotInterrupt_of_pos s h]

/-- The loop touches the subscription exactly on its interrupt path: it
returns `ErrInterrupt` with the subscription stopped, or returns `nil` with
the subscription as it found it. -/
theorem runAux_stop_dichotomy {α : Type} (ts : List α) (id : Nat)
    (arr : Nat → Nat) (s : SigChan) :
    ((runAux ts id arr s).2.1 = some GoError.errInterrupt →
      (runAux ts id arr s).2.2.notifyActive = false) ∧
    ((runAux ts id arr s).2.1 = none →
      (runAux ts id arr s).2.2.notifyActive = s.notifyActive) := by
  induction ts generalizing id s with
  | nil =>
    constructor
    · intro h
      simp [runAux] at h
    · intro _
      rfl
  | cons t rest ih =>
    rcases Nat.eq_zero_or_pos s.pending with hp | hp
    · have hg : s.gotInterrupt = (false, s) := gotInterrupt_of_empty s hp
      have hact : (SigChan.deliverN (arr id) s).notifyActive = s.notifyActive :=
        deliverN_notifyActive (arr id) s
      have := ih (id + 1) (SigChan.deliverN (arr id) s)
      constructor
      · intro h
        simp only [runAux, hg] at h ⊢
        simp only [Bool.false_eq_true, if_false] at h ⊢
        exact this.1 h
      · intro h
        simp only [runAux, hg] at h ⊢
        simp only [Bool.false_eq_true, if_false] at h ⊢
        rw [this.2 h, hact]
    · rw [runAux_interrupt_first t rest id arr s hp]
      constructor
      · intro _
        rfl
      · intro h
        simp at h

/-- The loop never returns `ErrTimeout`: only `Start` does. -/
theorem runAux_ne_timeout {α : Type} (ts : List α) (id : Nat)
    (arr : Nat → Nat) (s : SigChan) :
    (runAux ts id arr s).2.1 ≠ some GoError.errTimeout := by
  induction ts generalizing id s with
  | nil => simp [runAux]
  | cons t rest ih =>
    rcases Nat.eq_zero_or_pos s.pending with hp | hp
    · have hg : s.gotInterrupt = (false, s) := gotInterrupt_of_empty s hp
      simp only [runAux, hg, Bool.false_eq_true, if_false]
      exact ih (id + 1) (SigChan.deliverN (arr id) s)
    · rw [runAux_interrupt_first t rest id arr s hp]
      simp

/-- A channel that is empty and no longer subscribed stays that way: every
later check reports `false`, whatever signals are raised in between. -/
theorem checksAfter_dead (ns : List Nat) (s : SigChan) (hp : s.pending = 0)
    (ha : s.notifyActive = false) :
    checksAfter ns s = List.replicate ns.length false := by
  induction ns with
  | nil => rfl
  | cons n rest ih =>
    have hd : SigChan.deliverN n s = s := deliverN_of_inactive n s ha
    have hg : s.gotInterrupt = (false, s) := gotInterrupt_of_empty s hp
    simp [checksAfter, hd, hg, ih, List.replicate]

/-- On a capacity-1 channel holding at most one signal, at most one check in
any sequence of checks ever reports `true`. -/
theorem checksAfter_count (ns : List Nat) (s : SigChan) (hc : s.capacity = 1)
    (hp : s.pending ≤ 1) :
    (checksAfter ns s).count true ≤ 1 := by
  induction ns generalizing s with
  | nil => simp [checksAfter]
  | cons n rest ih =>
    have hc1 : (SigChan.deliverN n s).capacity = 1 := by
      rw [deliverN_capacity]
      exact hc
    have hp1 : (SigChan.deliverN n s).pending ≤ 1 := by
      have := deliverN_pending_le n s (by omega)
      omega
    rcases Nat.eq_zero_or_pos (SigChan.deliverN n s).pending with h0 | h0
    · have hg : (SigChan.deliverN n s).gotInterrupt = (false, SigChan.deliverN n s) :=
        gotInterrupt_of_empty _ h0
      simp only [checksAfter, hg]
      have := ih (SigChan.deliverN n s) hc1 hp1
      simpa [List.count_cons] using this
    · have hg : (SigChan.deliverN n s).gotInterrupt =
          (true, { SigChan.deliverN n s with
            pending := (SigChan.deliverN n s).pending - 1, notifyActive := false }) :=
        gotInterrupt_of_pos _ h0
      have hdead : checksAfter rest
          ({ SigChan.deliverN n s with
            pending := (SigChan.deliverN n s).pending - 1, notifyActive := false }) =
          List.replicate rest.length false := by
        apply checksAfter_dead
        · simp
          omega
        · rfl
      simp [checksAfter, hg, hdead, List.count_cons, List.count_replicate]

/-! ### Claim theorems -/

/-- Claim C1: with no cancellation signal ever raised (none pending at
subscription time, none arriving during any task) and the deadline not
firing, `Start` returns a `nil` error and the trace of invocations is
exactly the registered tasks in registration order, each called once with
its 0-based registration index as argument. -/
theorem claim_C1_success_in_order {α : Type} (r : Runner α) (arr : Nat → Nat)
    (hp : r.interrupt.pending = 0) (harr : ∀ i, arr i = 0) :
    (r.start 0 arr false).1 = none ∧
    (r.start 0 arr false).2.1 = r.tasks.zip (List.range r.tasks.length) := by
  have hrun := runAux_no_signal r.tasks 0 arr r.interrupt.notify hp harr
  constructor
  · simp [Runner.start, Runner.run, SigChan.deliverN, hrun]
  · simp [Runner.start, Runner.run, SigChan.deliverN, hrun, List.range_eq_range']

/-- Witness for claim C1: three tasks, no signal, no timeout. -/
theorem claim_C1_witness :
    (((Runner.new Nat 9).add [10, 20, 30]).start 0 (fun _ => 0) false).1 = none ∧
    (((Runner.new Nat 9).add [10, 20, 30]).start 0 (fun _ => 0) false).2.1 =
      [(10, 0), (20, 1), (30, 2)] := by
  have h := claim_C1_success_in_order ((Runner.new Nat 9).add [10, 20, 30])
    (fun _ => 0) rfl (fun _ => rfl)
  exact ⟨h.1, h.2.trans (by decide)⟩

/-- Claim C2: a cancellation signal pending before the first check, with a
non-empty task sequence and the deadline not firing, makes `Start` return
`ErrInterrupt` and no task is invoked: the cancellation condition is checked
before the first task runs. -/
theorem claim_C2_pending_interrupts_first {α : Type} (r : Runner α) (pre : Nat)
    (arr : Nat → Nat) (t : α) (ts : List α) (h0 : r.interrupt = newChan)
    (hpre : 1 ≤ pre) (htasks : r.tasks = t :: ts) :
    (r.start pre arr false).1 = some GoError.errInterrupt ∧
    (r.start pre arr false).2.1 = [] := by
  have hn : r.interrupt.notify =
      { capacity := 1, pending := 0, notifyActive := true } := by
    rw [h0]
    rfl
  have hd : SigChan.deliverN pre r.interrupt.notify =
      { capacity := 1, pending := 1, notifyActive := true } := by
    rw [hn]
    exact deliverN_fill pre _ rfl rfl rfl hpre
  have hr := runAux_interrupt_first t ts 0 arr
    ({ capacity := 1, pending := 1, notifyActive := true } : SigChan) (by decide)
  constructor <;> simp [Runner.start, Runner.run, htasks, hd, hr]

/-- Witness for claim C2: one task, two signals raised before the first
check. -/
theorem claim_C2_witness :
    (((Runner.new Nat 4).add [7]).start 2 (fun _ => 0) false).1 =
      some GoError.errInterrupt ∧
    (((Runner.new Nat 4).add [7]).start 2 (fun _ => 0) false).2.1 = [] :=
  claim_C2_pending_interrupts_first ((Runner.new Nat 4).add [7]) 2 (fun _ => 0)
    7 [] rfl (by decide) rfl

/-- Claim C3: if the first cancellation signal of the run is raised while
task `k` executes and the check preceding task `k + 1` exists
(`k + 1 < N`), then with the deadline not firing exactly tasks `0 .. k` are
invoked, each with its index, no later task runs, and `Start` returns
`ErrInterrupt`. -/
theorem claim_C3_interrupt_after_k {α : Type} (r : Runner α) (k : Nat)
    (arr : Nat → Nat) (h0 : r.interrupt = newChan)
    (hk : k + 1 < r.tasks.length) (hbefore : ∀ i, i < k → arr i = 0)
    (hsig : 1 ≤ arr k) :
    (r.start 0 arr false).1 = some GoError.errInterrupt ∧
    (r.start 0 arr false).2.1 =
      (r.tasks.zip (List.range r.tasks.length)).take (k + 1) := by
  have hr := runAux_interrupt_at r.tasks 0 k arr r.interrupt.notify
    (by rw [h0]; rfl) (by rw [h0]; rfl) (by rw [h0]; rfl) hk
    (fun i hi => by simpa using hbefore i hi) (by simpa using hsig)
  constructor <;>
    simp [Runner.start, Runner.run, SigChan.deliverN, hr, List.range_eq_range']

/-- Witness for claim C3: three tasks, the signal raised during task 1. -/
theorem claim_C3_witness :
    (((Runner.new Nat 5).add [10, 20, 30]).start 0
        (fun i => if i = 1 then 1 else 0) false).1 = some GoError.errInterrupt ∧
    (((Runner.new Nat 5).add [10, 20, 30]).start 0
        (fun i => if i = 1 then 1 else 0) false).2.1 = [(10, 0), (20, 1)] := by
  have h := claim_C3_interrupt_after_k ((Runner.new Nat 5).add [10, 20, 30]) 1
    (fun i => if i = 1 then 1 else 0) rfl (by decide)
    (fun i hi => by
      have h0 : i = 0 := by omega
      subst h0
      rfl)
    (by decide)
  exact ⟨h.1, h.2.trans (by decide)⟩

/-- Claim C4: an empty task sequence makes the execution loop return a `nil`
error at once with no cancellation check performed: the channel state comes
back untouched even when a signal is pending, and `Start` on a fresh runner
with no `Add` calls reports success whatever signals are raised. -/
theorem claim_C4_empty_tasks {α : Type} (arr : Nat → Nat) (s : SigChan)
    (d pre : Nat) :
    runAux ([] : List α) 0 arr s = ([], none, s) ∧
    ((Runner.new α d).start pre arr false).1 = none := by
  constructor
  · rfl
  · simp [Runner.start, Runner.run, Runner.new, runAux]

/-- Claim C5: when the deadline timer fires before the completion send is
received, `Start` returns `ErrTimeout` to the caller while the worker's
outcome — trace, return value and final channel state — is exactly what it
would have been had the timer not fired: the loop is abandoned, not
stopped. -/
theorem claim_C5_timeout_abandons {α : Type} (r : Runner α) (pre : Nat)
    (arr : Nat → Nat) :
    (r.start pre arr true).1 = some GoError.errTimeout ∧
    (r.start pre arr true).2 = (r.start pre arr false).2 := by
  constructor <;> rfl

/-- Claim C6: registration is a homomorphism on sequences: two `Add` calls
produce the very same runner as one `Add` of the concatenation — hence the
same task order and the same `Start` outcome — and `Add` with zero tasks
leaves the runner unchanged. -/
theorem claim_C6_add_append {α : Type} (r : Runner α) (ts1 ts2 : List α)
    (pre : Nat) (arr : Nat → Nat) (tf : Bool) :
    (r.add ts1).add ts2 = r.add (ts1 ++ ts2) ∧
    ((r.add ts1).add ts2).start pre arr tf =
      (r.add (ts1 ++ ts2)).start pre arr tf ∧
    r.add [] = r := by
  have h1 : (r.add ts1).add ts2 = r.add (ts1 ++ ts2) := by
    simp [Runner.add, List.append_assoc]
  refine ⟨h1, by rw [h1], ?_⟩
  simp [Runner.add]

/-- Claim C7: `signal.Stop` happens only on the path where the loop observes
a pending cancellation: when the worker returns `nil` the subscription made
by `Start` is still live; when it returns `ErrInterrupt` it has been
cancelled; and the timeout branch of `Start` performs no unsubscription of
its own — the worker outcome, final channel state included, is identical
whether or not the timer fires first. -/
theorem claim_C7_stop_only_on_interrupt {α : Type} (r : Runner α) (pre : Nat)
    (arr : Nat → Nat) :
    ((r.start pre arr false).2.2.1 = none →
      (r.start pre arr false).2.2.2.notifyActive = true) ∧
    ((r.start pre arr false).2.2.1 = some GoError.errInterrupt →
      (r.start pre arr false).2.2.2.notifyActive = false) ∧
    (r.start pre arr true).2.2.2 = (r.start pre arr false).2.2.2 := by
  have hact : (SigChan.deliverN pre r.interrupt.notify).notifyActive = true := by
    rw [deliverN_notifyActive]
    rfl
  have h := runAux_stop_dichotomy r.tasks 0 arr
    (SigChan.deliverN pre r.interrupt.notify)
  exact ⟨fun hnone => (h.2 hnone).trans hact, fun hint => h.1 hint, rfl⟩

/-- Witness for claim C7: a successful run keeps the subscription live. -/
theorem claim_C7_witness :
    (((Runner.new Nat 3).add [5]).start 0
      (fun _ => 0) false).2.2.2.notifyActive = true :=
  (claim_C7_stop_only_on_interrupt ((Runner.new Nat 3).add [5]) 0
    (fun _ => 0)).1 rfl

/-- Claim C8: cancellation is edge-triggered and consumed on observation:
once a `gotInterrupt` check on a channel holding at most one buffered signal
(as the capacity-1 channel of the source always does) reports `true`, every
later check on the resulting state reports `false`, however many signals are
raised in between. -/
theorem claim_C8_consumed_once (s s2 : SigChan) (ns : List Nat)
    (hp : s.pending ≤ 1) (h : s.gotInterrupt = (true, s2)) :
    checksAfter ns s2 = List.replicate ns.length false := by
  rcases Nat.eq_zero_or_pos s.pending with h0 | h0
  · rw [gotInterrupt_of_empty s h0] at h
    simp at h
  · rw [gotInterrupt_of_pos s h0] at h
    have h2 : ({ s with pending := s.pending - 1, notifyActive := false } :
        SigChan) = s2 :=
      congrArg Prod.snd h
    rw [← h2]
    apply checksAfter_dead
    · show s.pending - 1 = 0
      omega
    · rfl

/-- Witness for claim C8: after one observed interrupt, three further checks
with more signals raised all report `false`. -/
theorem claim_C8_witness :
    checksAfter [3, 0, 2] { capacity := 1, pending := 0, notifyActive := false } =
      [false, false, false] :=
  claim_C8_consumed_once { capacity := 1, pending := 1, notifyActive := true }
    { capacity := 1, pending := 0, notifyActive := false } [3, 0, 2]
    (by decide) rfl

/-- Claim C9 counterexample: for a concrete runner built by `New`, the
worker abandoned by a timed-out `Start` does not terminate: its final send
on the `complete` channel never completes, since `complete` is unbuffered
and no receiver remains. -/
theorem claim_C9_counterexample :
    (Runner.new Nat 5).workerTerminatesAfterTimeout = false := rfl

/-- Claim C9 (amended): after `Start` returns `ErrTimeout` the worker still
drives its loop to the very outcome it would have produced without the
timeout, but it then blocks forever on `r.complete <- r.run()`: `complete`
is created unbuffered by `New` and no receiver remains, so each timed-out
run leaves one permanently blocked worker goroutine whose result is never
delivered rather than discarded. -/
theorem claim_C9_amended_blocked {α : Type} (d : Nat) (r : Runner α)
    (pre : Nat) (arr : Nat → Nat) :
    (Runner.new α d).completeCapacity = 0 ∧
    (Runner.new α d).workerTerminatesAfterTimeout = false ∧
    (r.start pre arr true).2 = (r.start pre arr false).2 :=
  ⟨rfl, rfl, rfl⟩

/-- Claim C10: `New` creates the interrupt channel with capacity 1, so on
the subscribed empty channel any positive number of signals raised between
two checks coalesces into exactly one buffered signal (the excess is
dropped), and a sequence of checks on it observes cancellation at most
once. -/
theorem claim_C10_capacity_one (α : Type) (d n : Nat) (ns : List Nat)
    (s : SigChan) (hc : s.capacity = 1) (hp : s.pending = 0)
    (ha : s.notifyActive = true) (hn : 1 ≤ n) :
    (Runner.new α d).interrupt.capacity = 1 ∧
    SigChan.deliverN n s = { s with pending := 1 } ∧
    (checksAfter ns (SigChan.deliverN n s)).count true ≤ 1 := by
  refine ⟨rfl, deliverN_fill n s hc hp ha hn, ?_⟩
  rw [deliverN_fill n s hc hp ha hn]
  exact checksAfter_count ns _ hc (le_refl 1)

/-- Witness for claim C10: five signals coalesce to one, and two later
checks observe at most one cancellation. -/
theorem claim_C10_witness :
    (Runner.new Nat 2).interrupt.capacity = 1 ∧
    SigChan.deliverN 5 { capacity := 1, pending := 0, notifyActive := true } =
      { capacity := 1, pending := 1, notifyActive := true } ∧
    (checksAfter [0, 4]
      (SigChan.deliverN 5
        { capacity := 1, pending := 0, notifyActive := true })).count true ≤ 1 :=
  claim_C10_capacity_one Nat 2 5 [0, 4]
    { capacity := 1, pending := 0, notifyActive := true } rfl rfl rfl
    (by decide)
